import Mathlib

/- Verification of the core of the vscode-epubcheck extension.

   The development shallowly embeds the runner (`EpubCheckRunner` in
   src/epubcheckRunner.ts), the diagnostics mapping (`DiagnosticsProvider` in
   src/diagnosticsProvider.ts) and the data model (src/types/epubcheck.ts).

   The filesystem is modelled as an association list from absolute paths to
   file contents.  Filesystem calls that the source wraps in try/catch and
   that can fail for reasons outside the state (rename races, permissions)
   take an explicit Boolean oracle telling whether the OS call succeeded; the
   `catch` branch of the source is taken when the oracle is `false`.
   `fs.unlinkSync` inside `cleanupTmpFile` is modelled as succeeding (its
   `catch` swallows errors and no claim concerns a failing unlink). -/

/-- Filesystem state: bindings of absolute path to file content.  The state
denotes the partial map given by the first binding of a path. -/
abbrev FS := List (String × String)

/-- Content of the file at path `p` (`fs.readFileSync`, as a partial map). -/
def fsGet : FS → String → Option String
  | [], _ => none
  | (k, v) :: rest, p => if k = p then some v else fsGet rest p

/-- `fs.existsSync`. -/
def existsSync (fs : FS) (p : String) : Bool := (fsGet fs p).isSome

/-- Remove every binding of path `p` (`fs.unlinkSync`). -/
def removeFile : FS → String → FS
  | [], _ => []
  | (k, v) :: rest, p => if k = p then removeFile rest p else (k, v) :: removeFile rest p

/-- Create or overwrite the file at path `p`. -/
def writeFile (fs : FS) (p c : String) : FS := (p, c) :: removeFile fs p

/-- `fs.renameSync src dst`.  All call sites in the source check that `src`
exists first; on a missing `src` the model leaves the state unchanged. -/
def renameSync (fs : FS) (src dst : String) : FS :=
  match fsGet fs src with
  | none => fs
  | some c => writeFile (removeFile fs src) dst c

@[simp]
theorem fsGet_removeFile (fs : FS) (p q : String) :
    fsGet (removeFile fs p) q = if q = p then none else fsGet fs q := by
  induction fs with
  | nil => simp [removeFile, fsGet]
  | cons e rest ih =>
    obtain ⟨k, v⟩ := e
    by_cases hk : k = p <;> by_cases hq : q = p <;> by_cases hkq : k = q <;>
      simp_all [removeFile, fsGet]

@[simp]
theorem fsGet_writeFile (fs : FS) (p c q : String) :
    fsGet (writeFile fs p c) q = if q = p then some c else fsGet fs q := by
  by_cases h : q = p
  · subst h
    simp [writeFile, fsGet]
  · have h' : ¬p = q := fun hpq => h hpq.symm
    simp [writeFile, fsGet, h, h']

theorem fsGet_renameSync (fs : FS) (src dst q : String) (c : String)
    (hsrc : fsGet fs src = some c) :
    fsGet (renameSync fs src dst) q =
      if q = dst then some c else if q = src then none else fsGet fs q := by
  rw [renameSync, hsrc]
  simp

theorem existsSync_iff_mem_keys (fs : FS) (p : String) :
    existsSync fs p = true → p ∈ fs.map Prod.fst := by
  induction fs with
  | nil => simp [existsSync, fsGet]
  | cons e rest ih =>
    obtain ⟨k, v⟩ := e
    by_cases hk : k = p
    · simp [hk]
    · simp only [existsSync, fsGet, hk, if_neg hk, List.map_cons, List.mem_cons]
      intro h
      exact Or.inr (ih h)

/- ### Node `path` module (POSIX flavour), as used by the source.

The source uses `path.join`, `path.dirname`, `path.basename`, `path.extname`
and `path.basename(p, ext)`.  They are modelled over the character list of
the path, with Node's behaviour on the inputs the extension produces
(absolute paths with `/` separators and no trailing slash). -/

/-- Split a character list at the last occurrence of `sep`:
`some (before, after)` with `before ++ sep :: after = l`, or `none` when
`sep` does not occur. -/
def breakAtLastChar (sep : Char) : List Char → Option (List Char × List Char)
  | [] => none
  | c :: cs =>
    match breakAtLastChar sep cs with
    | some (b, a) => some (c :: b, a)
    | none => if c = sep then some ([], cs) else none

/-- `path.dirname`. -/
def dirname (p : String) : String :=
  match breakAtLastChar '/' p.data with
  | none => "."
  | some ([], _) => "/"
  | some (b, _) => String.mk b

/-- `path.basename` (one argument). -/
def basename (p : String) : String :=
  match breakAtLastChar '/' p.data with
  | none => p
  | some (_, a) => String.mk a

/-- `path.extname`: from the last `.` of the basename, empty when the only
`.` is the leading character. -/
def extname (p : String) : String :=
  match breakAtLastChar '.' (basename p).data with
  | none => ""
  | some ([], _) => ""
  | some (_ :: _, a) => String.mk ('.' :: a)

/-- `path.basename p ext` (two arguments): the basename with the suffix
`ext` stripped when it is a proper suffix. -/
def basenameStripExt (p ext : String) : String :=
  let b := (basename p).data
  let e := ext.data
  if String.mk b ≠ ext ∧ e.isSuffixOf b then String.mk (b.take (b.length - e.length))
  else String.mk b

/-- `path.join a b` for a single relative component `b`. -/
def pathJoin (a b : String) : String :=
  if a.data = [] then b
  else if a.data.getLast? = some '/' then a ++ b
  else a ++ "/" ++ b

theorem string_append_cancel_left {a b c : String} (h : a ++ b = a ++ c) : b = c := by
  apply String.ext
  have hd := congrArg String.data h
  simp only [String.data_append] at hd
  exact List.append_cancel_left hd

theorem pathJoin_right_inj (a : String) {b c : String} (h : pathJoin a b = pathJoin a c) :
    b = c := by
  unfold pathJoin at h
  split_ifs at h
  · exact h
  · exact string_append_cancel_left h
  · exact string_append_cancel_left h

/- ### Decimal numerals: `Nat.repr` is injective.

`getUniquePath` renders the loop counter in decimal inside the candidate
name; collision-freedom rests on distinct counters giving distinct names. -/

/-- Value read back from a most-significant-first decimal digit list,
starting from accumulator `a`. -/
def digitsVal (a : Nat) (cs : List Char) : Nat :=
  cs.foldl (fun acc c => 10 * acc + (c.toNat - 48)) a

theorem digitChar_val : ∀ r, r < 10 → (Nat.digitChar r).toNat - 48 = r := by decide

theorem toDigitsCore_append (f : Nat) : ∀ (n : Nat) (l : List Char),
    Nat.toDigitsCore 10 f n l = Nat.toDigitsCore 10 f n [] ++ l := by
  induction f with
  | zero => intro n l; simp [Nat.toDigitsCore]
  | succ f ih =>
    intro n l
    simp only [Nat.toDigitsCore]
    by_cases h : n / 10 = 0
    · simp [h]
    · simp only [h, if_false]
      rw [ih (n / 10) (Nat.digitChar (n % 10) :: l), ih (n / 10) [Nat.digitChar (n % 10)]]
      simp

theorem digitsVal_toDigitsCore (f : Nat) : ∀ (n a : Nat), n < f →
    digitsVal a (Nat.toDigitsCore 10 f n []) =
      a * 10 ^ (Nat.toDigitsCore 10 f n []).length + n := by
  induction f with
  | zero => intro n a h; omega
  | succ f ih =>
    intro n a h
    simp only [Nat.toDigitsCore]
    by_cases h0 : n / 10 = 0
    · have hn : n < 10 := by omega
      have hdc : (Nat.digitChar n).toNat - 48 = n := digitChar_val n hn
      have hmod : n % 10 = n := Nat.mod_eq_of_lt hn
      simp [h0, digitsVal, hmod, hdc, pow_one]
      omega
    · simp only [h0, if_false]
      have hrec : n / 10 < f := by omega
      rw [toDigitsCore_append f (n / 10) [Nat.digitChar (n % 10)]]
      have hdm : 10 * (n / 10) + n % 10 = n := Nat.div_add_mod n 10
      have hdc : (Nat.digitChar (n % 10)).toNat - 48 = n % 10 :=
        digitChar_val (n % 10) (Nat.mod_lt n (by omega))
      simp only [digitsVal, List.foldl_append, List.length_append, List.length_cons,
        List.length_nil, List.foldl_cons, List.foldl_nil, hdc]
      have hih := ih (n / 10) a hrec
      simp only [digitsVal] at hih
      rw [hih, pow_succ]
      calc 10 * (a * 10 ^ (Nat.toDigitsCore 10 f (n / 10) []).length + n / 10) + n % 10
          = a * (10 ^ (Nat.toDigitsCore 10 f (n / 10) []).length * 10)
              + (10 * (n / 10) + n % 10) := by ring
        _ = a * (10 ^ (Nat.toDigitsCore 10 f (n / 10) []).length * 10) + n := by rw [hdm]

theorem digitsVal_toDigits (n : Nat) : digitsVal 0 (Nat.toDigits 10 n) = n := by
  have h := digitsVal_toDigitsCore (n + 1) n 0 (Nat.lt_succ_self n)
  simpa [Nat.toDigits] using h

theorem natRepr_inj {m n : Nat} (h : Nat.repr m = Nat.repr n) : m = n := by
  have hd : Nat.toDigits 10 m = Nat.toDigits 10 n := by
    have h2 := congrArg String.data h
    simpa [Nat.repr, List.asString] using h2
  calc m = digitsVal 0 (Nat.toDigits 10 m) := (digitsVal_toDigits m).symm
    _ = digitsVal 0 (Nat.toDigits 10 n) := by rw [hd]
    _ = n := digitsVal_toDigits n

/- ### Candidate names for `getUniquePath` -/

/-- The candidate `dir/base (counter)ext` built by `getUniquePath`'s loop. -/
def candidateName (dir base ext : String) (counter : Nat) : String :=
  pathJoin dir (base ++ " (" ++ Nat.repr counter ++ ")" ++ ext)

theorem candidateName_inj (dir base ext : String) {m n : Nat}
    (h : candidateName dir base ext m = candidateName dir base ext n) : m = n := by
  unfold candidateName at h
  have h1 := pathJoin_right_inj _ h
  have h2 := congrArg String.data h1
  simp only [String.data_append, List.append_assoc] at h2
  have h3 := List.append_cancel_left h2
  have h4 := List.append_cancel_left h3
  have h5 := List.append_cancel_right h4
  exact natRepr_inj (String.ext h5)

theorem exists_free_candidate (fs : FS) (dir base ext : String) (c : Nat) :
    ∃ j, j ≤ fs.length ∧ existsSync fs (candidateName dir base ext (c + j)) = false := by
  by_contra hcon
  push_neg at hcon
  have hall : ∀ j, j ≤ fs.length → existsSync fs (candidateName dir base ext (c + j)) = true := by
    intro j hj
    have := hcon j hj
    revert this
    cases existsSync fs (candidateName dir base ext (c + j)) <;> simp
  have hmem : ∀ j ∈ Finset.range (fs.length + 1),
      candidateName dir base ext (c + j) ∈ (fs.map Prod.fst).toFinset := by
    intro j hj
    rw [List.mem_toFinset]
    exact existsSync_iff_mem_keys fs _ (hall j (Nat.lt_succ_iff.mp (Finset.mem_range.mp hj)))
  have hinj : Set.InjOn (fun j => candidateName dir base ext (c + j))
      ↑(Finset.range (fs.length + 1)) := by
    intro j1 _ j2 _ heq
    have := candidateName_inj dir base ext heq
    omega
  have hcard := Finset.card_le_card_of_injOn _ hmem hinj
  rw [Finset.card_range] at hcard
  have hfin : (fs.map Prod.fst).toFinset.card ≤ fs.length := by
    calc (fs.map Prod.fst).toFinset.card ≤ (fs.map Prod.fst).length := List.toFinset_card_le _
      _ = fs.length := List.length_map _ _
  omega

/-- The do/while loop of `EpubCheckRunner.getUniquePath`: starting at
`counter`, return the first candidate name that does not exist.  The loop in
the source is unbounded; here it runs on fuel, and `exists_free_candidate`
shows that the fuel `fs.length + 1` used by `getUniquePath` is never
exhausted (the fuel-0 fallback is unreachable). -/
def findFreeName (fs : FS) (dir base ext : String) : Nat → Nat → String
  | counter, 0 => candidateName dir base ext counter
  | counter, fuel + 1 =>
    let candidate := candidateName dir base ext counter
    if existsSync fs candidate then findFreeName fs dir base ext (counter + 1) fuel
    else candidate

theorem findFreeName_spec (fs : FS) (dir base ext : String) :
    ∀ (fuel c : Nat),
    (∃ j, j < fuel ∧ existsSync fs (candidateName dir base ext (c + j)) = false) →
    ∃ j, j < fuel ∧
      findFreeName fs dir base ext c fuel = candidateName dir base ext (c + j) ∧
      existsSync fs (candidateName dir base ext (c + j)) = false ∧
      ∀ i, i < j → existsSync fs (candidateName dir base ext (c + i)) = true := by
  intro fuel
  induction fuel with
  | zero =>
    intro c h
    obtain ⟨j, hj, _⟩ := h
    omega
  | succ fuel ih =>
    intro c hex
    by_cases h0 : existsSync fs (candidateName dir base ext c) = true
    · obtain ⟨j, hj, hfree⟩ := hex
      have hj0 : j ≠ 0 := by
        rintro rfl
        rw [Nat.add_zero] at hfree
        rw [h0] at hfree
        exact absurd hfree (by simp)
      obtain ⟨j', rfl⟩ : ∃ j', j = j' + 1 := ⟨j - 1, by omega⟩
      have hshift : c + (j' + 1) = c + 1 + j' := by omega
      have hex' : ∃ j2, j2 < fuel ∧
          existsSync fs (candidateName dir base ext (c + 1 + j2)) = false := by
        refine ⟨j', by omega, ?_⟩
        rw [← hshift]
        exact hfree
      obtain ⟨j2, hj2, heq, hfr, hbelow⟩ := ih (c + 1) hex'
      refine ⟨j2 + 1, by omega, ?_, ?_, ?_⟩
      · have hstep : findFreeName fs dir base ext c (fuel + 1) =
            findFreeName fs dir base ext (c + 1) fuel := by
          simp only [findFreeName, h0, if_true]
        rw [hstep, heq]
        have : c + (j2 + 1) = c + 1 + j2 := by omega
        rw [this]
      · have : c + (j2 + 1) = c + 1 + j2 := by omega
        rw [this]
        exact hfr
      · intro i hi
        cases i with
        | zero =>
          rw [Nat.add_zero]
          exact h0
        | succ i' =>
          have : c + (i' + 1) = c + 1 + i' := by omega
          rw [this]
          exact hbelow i' (by omega)
    · have h0' : existsSync fs (candidateName dir base ext c) = false := by
        revert h0
        cases existsSync fs (candidateName dir base ext c) <;> simp
      refine ⟨0, by omega, ?_, ?_, ?_⟩
      · simp only [findFreeName, h0', Bool.false_eq_true, if_false, Nat.add_zero]
      · rw [Nat.add_zero]
        exact h0'
      · intro i hi
        exact absurd hi (Nat.not_lt_zero i)

/-- `EpubCheckRunner.getUniquePath`. -/
def getUniquePath (fs : FS) (filePath : String) : String :=
  if existsSync fs filePath = false then filePath
  else
    let dir := dirname filePath
    let ext := extname filePath
    let base := basenameStripExt filePath ext
    findFreeName fs dir base ext 2 (fs.length + 1)

/-- **C6.** `getUniquePath fs p` returns `p` itself when no file exists at
`p`; otherwise it returns the first candidate `base (n)ext` in the same
directory, for `n` counted up from 2, at which no file exists; the result
never names an existing file (for a fixed state it is a function, hence
deterministic, and each restore yields exactly one new absent name). -/
theorem getUniquePath_spec (fs : FS) (filePath : String) :
    (existsSync fs filePath = false → getUniquePath fs filePath = filePath) ∧
    (existsSync fs filePath = true →
      ∃ n, 2 ≤ n ∧
        getUniquePath fs filePath =
          candidateName (dirname filePath)
            (basenameStripExt filePath (extname filePath)) (extname filePath) n ∧
        existsSync fs (candidateName (dirname filePath)
            (basenameStripExt filePath (extname filePath)) (extname filePath) n) = false ∧
        ∀ m, 2 ≤ m → m < n →
          existsSync fs (candidateName (dirname filePath)
            (basenameStripExt filePath (extname filePath)) (extname filePath) m) = true) ∧
    existsSync fs (getUniquePath fs filePath) = false := by
  refine ⟨?_, ?_, ?_⟩
  · intro h
    simp [getUniquePath, h]
  · intro h
    have hex : ∃ j, j < fs.length + 1 ∧
        existsSync fs (candidateName (dirname filePath)
          (basenameStripExt filePath (extname filePath)) (extname filePath) (2 + j)) = false := by
      obtain ⟨j, hj, hfree⟩ := exists_free_candidate fs (dirname filePath)
        (basenameStripExt filePath (extname filePath)) (extname filePath) 2
      exact ⟨j, by omega, hfree⟩
    obtain ⟨j, hj, heq, hfr, hbelow⟩ := findFreeName_spec fs (dirname filePath)
      (basenameStripExt filePath (extname filePath)) (extname filePath) (fs.length + 1) 2 hex
    refine ⟨2 + j, by omega, ?_, hfr, ?_⟩
    · rw [getUniquePath, if_neg (by simp [h])]
      exact heq
    · intro m hm2 hmlt
      have : m = 2 + (m - 2) := by omega
      rw [this]
      exact hbelow (m - 2) (by omega)
  · by_cases h : existsSync fs filePath = true
    · obtain ⟨j, hj, heq, hfr, _⟩ := findFreeName_spec fs (dirname filePath)
        (basenameStripExt filePath (extname filePath)) (extname filePath) (fs.length + 1) 2
        (by
          obtain ⟨j, hj, hfree⟩ := exists_free_candidate fs (dirname filePath)
            (basenameStripExt filePath (extname filePath)) (extname filePath) 2
          exact ⟨j, by omega, hfree⟩)
      rw [getUniquePath, if_neg (by simp [h])]
      rw [heq]
      exact hfr
    · have h' : existsSync fs filePath = false := by
        revert h
        cases existsSync fs filePath <;> simp
      rw [getUniquePath, if_pos h']
      exact h'

/- ### Data model (src/types/epubcheck.ts) -/

/-- `EpubCheckLocation`.  Line and column are the tool's 1-based numbers,
kept as integers because the tool may emit values below 1. -/
structure EpubCheckLocation where
  path : String
  line : Int
  column : Int
  context : Option String := none
  deriving DecidableEq

/-- `EpubCheckMessage`.  The severity is kept as a raw string: the JSON may
hold values outside the five-value union, which `mapSeverity` must map. -/
structure EpubCheckMessage where
  ID : String
  severity : String
  message : String
  additionalLocations : Int := 0
  locations : List EpubCheckLocation := []
  suggestion : Option String := none
  deriving DecidableEq

/-- `EpubCheckChecker` (the fields the runner relies on). -/
structure EpubCheckChecker where
  name : String := ""
  version : Option String := none
  checkerVersion : Option String := none
  deriving DecidableEq

/-- `EpubCheckResult` (publication/items metadata elided: the runner and
the diagnostics mapping only consume `messages`). -/
structure EpubCheckResult where
  checker : EpubCheckChecker := {}
  messages : List EpubCheckMessage
  deriving DecidableEq

/-- `ValidationResult`. -/
structure ValidationResult where
  success : Bool
  epubDir : String
  epubCheckResult : Option EpubCheckResult := none
  error : Option String := none
  epubOutputPath : Option String := none
  deriving DecidableEq

/- ### VS Code diagnostic types (the parts DiagnosticsProvider populates) -/

structure VsPosition where
  line : Nat
  character : Nat
  deriving DecidableEq

/-- `vscode.Range`; the `end` position is called `stop` (`end` is a Lean
keyword). -/
structure VsRange where
  start : VsPosition
  stop : VsPosition
  deriving DecidableEq

inductive VsDiagnosticSeverity where
  | Error
  | Warning
  | Information
  | Hint
  deriving DecidableEq

structure VsDiagnostic where
  range : VsRange
  message : String
  severity : VsDiagnosticSeverity
  code : String
  source : String
  deriving DecidableEq

/- ### DiagnosticsProvider (src/diagnosticsProvider.ts) -/

/-- `DiagnosticsProvider.mapSeverity`. -/
def mapSeverity (severity : String) : VsDiagnosticSeverity :=
  match severity with
  | "FATAL" => VsDiagnosticSeverity.Error
  | "ERROR" => VsDiagnosticSeverity.Error
  | "WARNING" => VsDiagnosticSeverity.Warning
  | "USAGE" => VsDiagnosticSeverity.Information
  | "INFO" => VsDiagnosticSeverity.Hint
  | _ => VsDiagnosticSeverity.Error

/-- `DiagnosticsProvider.createDiagnostic`.  `fileLines` is the cached line
list of the target file, `none` when unreadable; `Math.max(0, x - 1)` on a
1-based number is `(x - 1).toNat`. -/
def createDiagnostic (message : EpubCheckMessage) (location : EpubCheckLocation)
    (fileLines : Option (List String)) : VsDiagnostic :=
  let line : Nat := (location.line - 1).toNat
  let column : Nat := (location.column - 1).toNat
  let endColumn0 : Nat :=
    match fileLines with
    | some lines => if h : line < lines.length then (lines.get ⟨line, h⟩).length else column + 1
    | none => column + 1
  let endColumn : Nat := if endColumn0 ≤ column then column + 1 else endColumn0
  let severity := mapSeverity message.severity
  let diagnosticMessage :=
    match message.suggestion with
    | some s => message.message ++ "\nSuggestion: " ++ s
    | none => message.message
  { range := { start := { line := line, character := column },
               stop := { line := line, character := endColumn } },
    message := diagnosticMessage,
    severity := severity,
    code := message.ID,
    source := "EPUBCheck" }

/-- **C8.** `mapSeverity` implements the fixed table FATAL→Error,
ERROR→Error, WARNING→Warning, USAGE→Information, INFO→Hint and maps any
unrecognized severity to Error; being a Lean function of its argument it
returns the same level on every call with the same input. -/
theorem mapSeverity_table (s : String)
    (h : s ≠ "FATAL" ∧ s ≠ "ERROR" ∧ s ≠ "WARNING" ∧ s ≠ "USAGE" ∧ s ≠ "INFO") :
    mapSeverity "FATAL" = VsDiagnosticSeverity.Error ∧
    mapSeverity "ERROR" = VsDiagnosticSeverity.Error ∧
    mapSeverity "WARNING" = VsDiagnosticSeverity.Warning ∧
    mapSeverity "USAGE" = VsDiagnosticSeverity.Information ∧
    mapSeverity "INFO" = VsDiagnosticSeverity.Hint ∧
    mapSeverity s = VsDiagnosticSeverity.Error := by
  refine ⟨rfl, rfl, rfl, rfl, rfl, ?_⟩
  unfold mapSeverity
  split <;> simp_all

theorem mapSeverity_table_witness :
    mapSeverity "SUGGESTION" = VsDiagnosticSeverity.Error :=
  (mapSeverity_table "SUGGESTION" (by decide)).2.2.2.2.2

/-- **C3.** `createDiagnostic` maps the 1-based line/column to 0-based,
clamping results below 0 to 0; the end column is the full length of the
0-based line when the file's lines are cached, that line exists and is
longer than the start column; when the lines are unavailable or the
computed end would not exceed the start, the end column is start + 1; the
produced range always satisfies end > start; and a message at line 5,
column 3 against a cached file whose 0-based line 4 is 40 characters long
yields range start (4,2), end (4,40). -/
theorem createDiagnostic_spec (m : EpubCheckMessage) (loc : EpubCheckLocation)
    (fileLines : Option (List String)) :
    ((createDiagnostic m loc fileLines).range.start.line = (loc.line - 1).toNat ∧
     (createDiagnostic m loc fileLines).range.start.character = (loc.column - 1).toNat ∧
     (createDiagnostic m loc fileLines).range.stop.line = (loc.line - 1).toNat) ∧
    (∀ lines, fileLines = some lines →
      ∀ h : (loc.line - 1).toNat < lines.length,
        (loc.column - 1).toNat < (lines.get ⟨(loc.line - 1).toNat, h⟩).length →
        (createDiagnostic m loc fileLines).range.stop.character =
          (lines.get ⟨(loc.line - 1).toNat, h⟩).length) ∧
    (fileLines = none →
      (createDiagnostic m loc fileLines).range.stop.character = (loc.column - 1).toNat + 1) ∧
    (∀ lines, fileLines = some lines →
      ∀ h : (loc.line - 1).toNat < lines.length,
        (lines.get ⟨(loc.line - 1).toNat, h⟩).length ≤ (loc.column - 1).toNat →
        (createDiagnostic m loc fileLines).range.stop.character = (loc.column - 1).toNat + 1) ∧
    (createDiagnostic m loc fileLines).range.start.character <
      (createDiagnostic m loc fileLines).range.stop.character ∧
    (∀ lines, fileLines = some lines → loc.line = 5 → loc.column = 3 →
      ∀ h : 4 < lines.length, (lines.get ⟨4, h⟩).length = 40 →
        (createDiagnostic m loc fileLines).range.start = ⟨4, 2⟩ ∧
        (createDiagnostic m loc fileLines).range.stop = ⟨4, 40⟩) := by
  refine ⟨⟨rfl, rfl, rfl⟩, ?_, ?_, ?_, ?_, ?_⟩
  · intro lines hfl h hlen
    subst hfl
    simp only [createDiagnostic]
    rw [dif_pos h, if_neg (by omega)]
  · intro hfl
    subst hfl
    simp [createDiagnostic]
  · intro lines hfl h hlen
    subst hfl
    simp only [createDiagnostic]
    rw [dif_pos h, if_pos hlen]
  · rcases fileLines with _ | lines
    · simp [createDiagnostic]
    · simp only [createDiagnostic]
      by_cases h : (loc.line - 1).toNat < lines.length
      · rw [dif_pos h]
        by_cases hle : (lines.get ⟨(loc.line - 1).toNat, h⟩).length ≤ (loc.column - 1).toNat
        · rw [if_pos hle]
          omega
        · rw [if_neg hle]
          omega
      · rw [dif_neg h]
        simp
  · intro lines hfl h5 hc3 h hlen
    subst hfl
    have hline : ((5 : Int) - 1).toNat = 4 := by decide
    have hcol : ((3 : Int) - 1).toNat = 2 := by decide
    simp only [createDiagnostic, h5, hc3, hline, hcol]
    rw [dif_pos h, hlen, if_neg (by omega)]
    constructor <;> first | rfl | trivial

theorem createDiagnostic_spec_witness :
    (createDiagnostic { ID := "RSC-005", severity := "ERROR", message := "bad" }
        { path := "x.xhtml", line := 5, column := 3 }
        (some ["a", "b", "c", "d", "0123456789012345678901234567890123456789"])).range.start =
      ⟨4, 2⟩ ∧
    (createDiagnostic { ID := "RSC-005", severity := "ERROR", message := "bad" }
        { path := "x.xhtml", line := 5, column := 3 }
        (some ["a", "b", "c", "d", "0123456789012345678901234567890123456789"])).range.stop =
      ⟨4, 40⟩ :=
  (createDiagnostic_spec { ID := "RSC-005", severity := "ERROR", message := "bad" }
      { path := "x.xhtml", line := 5, column := 3 }
      (some ["a", "b", "c", "d", "0123456789012345678901234567890123456789"])).2.2.2.2.2
    ["a", "b", "c", "d", "0123456789012345678901234567890123456789"]
    rfl rfl rfl (by decide) (by decide)

/-- **C10.** When the file's lines are cached but the converted 0-based
line index is at or past the number of lines, `createDiagnostic` takes the
fallback branch without indexing the lines array and the end column is
start column + 1; the range is still non-empty. -/
theorem createDiagnostic_line_out_of_range (m : EpubCheckMessage) (loc : EpubCheckLocation)
    (lines : List String) (h : lines.length ≤ (loc.line - 1).toNat) :
    (createDiagnostic m loc (some lines)).range.stop.character =
      (createDiagnostic m loc (some lines)).range.start.character + 1 ∧
    (createDiagnostic m loc (some lines)).range.start.character <
      (createDiagnostic m loc (some lines)).range.stop.character := by
  have h' : ¬((loc.line - 1).toNat < lines.length) := by omega
  simp only [createDiagnostic]
  rw [dif_neg h']
  simp

theorem createDiagnostic_line_out_of_range_witness :
    (["ab", "cd"] : List String).length ≤ (((100 : Int)) - 1).toNat ∧
    (createDiagnostic { ID := "OPF-001", severity := "WARNING", message := "w" }
        { path := "p.opf", line := 100, column := 2 }
        (some ["ab", "cd"])).range.stop.character =
      (createDiagnostic { ID := "OPF-001", severity := "WARNING", message := "w" }
          { path := "p.opf", line := 100, column := 2 }
          (some ["ab", "cd"])).range.start.character + 1 :=
  ⟨by decide,
   (createDiagnostic_line_out_of_range { ID := "OPF-001", severity := "WARNING", message := "w" }
      { path := "p.opf", line := 100, column := 2 } ["ab", "cd"] (by decide)).1⟩

/- ### EpubCheckRunner (src/epubcheckRunner.ts) -/

/-- `EpubCheckRunner.getDefaultEpubPath`. -/
def getDefaultEpubPath (epubDir : String) : String :=
  pathJoin (dirname epubDir) (basename epubDir ++ ".epub")

/-- The hidden backup name `.epubcheck-protect-<timestamp><ext>`; `ts`
stands for `Date.now()`. -/
def protectName (ts : Nat) (ext : String) : String :=
  ".epubcheck-protect-" ++ Nat.repr ts ++ ext

/-- `EpubCheckRunner.protectExistingEpub`; `renameOk` tells whether the
protective `fs.renameSync` succeeded (on failure the catch returns
`undefined`, leaving the state unchanged). -/
def protectExistingEpub (fs : FS) (epubPath : Option String) (ts : Nat)
    (renameOk : Bool) : FS × Option String :=
  match epubPath with
  | none => (fs, none)
  | some p =>
    if existsSync fs p then
      let tmpPath := pathJoin (dirname p) (protectName ts (extname p))
      if renameOk then (renameSync fs p tmpPath, some tmpPath) else (fs, none)
    else (fs, none)

/-- `EpubCheckRunner.restoreProtectedEpub`; `r1Ok` is the oracle for the
rename to the unique restore path, `r2Ok` for the fallback rename to the
original name attempted in the catch. -/
def restoreProtectedEpub (fs : FS) (protectedPath : Option String)
    (targetPath : String) (r1Ok r2Ok : Bool) : FS :=
  match protectedPath with
  | none => fs
  | some pp =>
    if existsSync fs pp then
      if r1Ok then renameSync fs pp (getUniquePath fs targetPath)
      else if existsSync fs targetPath then fs
      else if r2Ok then renameSync fs pp targetPath
      else fs
    else fs

/-- `EpubCheckRunner.findGeneratedEpub`; `moveOk` is the oracle for the
move of an inside artifact to the sibling target path. -/
def findGeneratedEpub (fs : FS) (epubDir : String)
    (targetPath protectedPath : Option String) (moveOk r1Ok r2Ok : Bool) :
    FS × Option String :=
  match targetPath with
  | none => (fs, none)
  | some target =>
    let folderName := basename epubDir
    let insidePath := pathJoin epubDir (folderName ++ ".epub")
    if existsSync fs insidePath then
      if moveOk then
        let fs1 := renameSync fs insidePath target
        (restoreProtectedEpub fs1 protectedPath target r1Ok r2Ok, some target)
      else
        (restoreProtectedEpub fs protectedPath target r1Ok r2Ok, some insidePath)
    else if existsSync fs target then
      (restoreProtectedEpub fs protectedPath target r1Ok r2Ok, some target)
    else
      (restoreProtectedEpub fs protectedPath target r1Ok r2Ok, none)

/-- `EpubCheckRunner.cleanupTmpFile` (the unlink is modelled as
succeeding; its catch swallows OS errors). -/
def cleanupTmpFile (fs : FS) (filePath : String) : FS :=
  if existsSync fs filePath then removeFile fs filePath else fs

/-- The timeout error text shared by `run` and `generateOnly`. -/
def timeoutMessage (timeout : Nat) : String :=
  "EPUBCheck timed out after " ++ Nat.repr timeout ++
    " seconds. You can increase the timeout in settings (epubcheck.timeout)."

/-- The parse-failure error text of `run`'s catch branch. -/
def parseFailureMessage (stderr : String) (code : Option Int) : String :=
  let m1 := "EPUBCheck failed to produce valid output."
  let m2 := if stderr ≠ "" then m1 ++ "\nDetails: " ++ stderr.trim else m1
  match code with
  | some c => if c ≠ 0 then m2 ++ "\nExit code: " ++ toString c else m2
  | none => m2

/-- Environment of one child-process run: what the events delivered and
which renames the OS let succeed.  `timedOut` is the flag the error
handler sets on ETIMEDOUT/kill before `close` fires; `exitCode = none` is
a `null` exit code; `toolWrites` are the files the external tool wrote
while it ran. -/
structure RunEnv where
  timedOut : Bool
  exitCode : Option Int
  stderr : String := ""
  toolWrites : List (String × String) := []
  protectOk : Bool := true
  moveOk : Bool := true
  r1Ok : Bool := true
  r2Ok : Bool := true

/-- Apply the external tool's file writes to the state. -/
def applyWrites (fs : FS) (ws : List (String × String)) : FS :=
  ws.foldl (fun f e => writeFile f e.1 e.2) fs

/-- State after protecting the existing artifact and letting the external
process run, together with the protected path (`run`, before the close
handler fires). -/
def runPrelude (fs0 : FS) (epubDir : String) (save : Bool) (ts : Nat)
    (env : RunEnv) : FS × Option String :=
  let defaultEpubPath := if save then some (getDefaultEpubPath epubDir) else none
  let pre :=
    if save then protectExistingEpub fs0 defaultEpubPath ts env.protectOk
    else (fs0, none)
  (applyWrites pre.1 env.toolWrites, pre.2)

/-- The `close` handler of `EpubCheckRunner.run`: timeout classification,
result-file read and parse, outcome construction and artifact
reconciliation.  `parse` stands for `JSON.parse` into the result schema;
a missing file and malformed content both land in the catch branch. -/
def runClose (fs2 : FS) (epubDir : String) (save : Bool) (timeout : Nat)
    (jsonTmpFile : String) (defaultEpubPath protectedPath : Option String)
    (parse : String → Option EpubCheckResult) (env : RunEnv) :
    FS × ValidationResult :=
  if env.timedOut || env.exitCode.isNone then
    (cleanupTmpFile fs2 jsonTmpFile,
     { success := false, epubDir := epubDir, error := some (timeoutMessage timeout) })
  else
    match (fsGet fs2 jsonTmpFile).bind parse with
    | some result =>
      let fs3 := cleanupTmpFile fs2 jsonTmpFile
      let hasErrors :=
        result.messages.any (fun m => m.severity == "FATAL" || m.severity == "ERROR")
      let fg :=
        if save then
          findGeneratedEpub fs3 epubDir defaultEpubPath protectedPath
            env.moveOk env.r1Ok env.r2Ok
        else (fs3, none)
      (fg.1, { success := !hasErrors, epubDir := epubDir,
               epubCheckResult := some result, epubOutputPath := fg.2 })
    | none =>
      (cleanupTmpFile fs2 jsonTmpFile,
       { success := false, epubDir := epubDir,
         error := some (parseFailureMessage env.stderr env.exitCode) })

/-- `EpubCheckRunner.run` in validation/save mode: protect, let the
process run (`env`), then the close handler. -/
def run (fs0 : FS) (epubDir : String) (save : Bool) (timeout ts : Nat)
    (jsonTmpFile : String) (parse : String → Option EpubCheckResult)
    (env : RunEnv) : FS × ValidationResult :=
  let defaultEpubPath := if save then some (getDefaultEpubPath epubDir) else none
  let pre := runPrelude fs0 epubDir save ts env
  runClose pre.1 epubDir save timeout jsonTmpFile defaultEpubPath pre.2 parse env

/-- `EpubCheckRunner.generateOnly`: generation without a JSON result
file; its close handler branches on the exit code. -/
def generateOnly (fs0 : FS) (epubDir : String) (timeout ts : Nat)
    (env : RunEnv) : FS × ValidationResult :=
  let defaultPath := getDefaultEpubPath epubDir
  let pre := protectExistingEpub fs0 (some defaultPath) ts env.protectOk
  let fs2 := applyWrites pre.1 env.toolWrites
  if env.timedOut then
    (fs2, { success := false, epubDir := epubDir, error := some (timeoutMessage timeout) })
  else
    match env.exitCode with
    | none =>
      (fs2, { success := false, epubDir := epubDir, error := some (timeoutMessage timeout) })
    | some c =>
      if c = 0 ∨ c = 1 then
        let fg := findGeneratedEpub fs2 epubDir (some defaultPath) pre.2
          env.moveOk env.r1Ok env.r2Ok
        let error :=
          if fg.2 = none ∧ c = 1 then
            some "EPUBCheck aborted EPUB generation due to validation errors. Fix the errors and try again."
          else if fg.2 = none then
            some "EPUBCheck did not generate an EPUB file."
          else none
        (fg.1, { success := fg.2.isSome, epubDir := epubDir,
                 epubOutputPath := fg.2, error := error })
      else
        (fs2, { success := false, epubDir := epubDir,
                error := some ("EPUBCheck failed with exit code " ++ toString c ++ ".\n" ++ env.stderr) })

/- ### Helper lemmas about the runner's filesystem steps -/

theorem existsSync_false_iff (fs : FS) (p : String) :
    existsSync fs p = false ↔ fsGet fs p = none := by
  unfold existsSync
  cases fsGet fs p <;> simp

theorem existsSync_true_iff (fs : FS) (p : String) :
    existsSync fs p = true ↔ ∃ c, fsGet fs p = some c := by
  unfold existsSync
  cases fsGet fs p <;> simp

/-- `getUniquePath` never returns the name of an existing file (helper
shared by the restore lemmas). -/
theorem getUniquePath_not_exists (fs : FS) (filePath : String) :
    existsSync fs (getUniquePath fs filePath) = false := by
  by_cases h : existsSync fs filePath = true
  · obtain ⟨j, hj, heq, hfr, _⟩ := findFreeName_spec fs (dirname filePath)
      (basenameStripExt filePath (extname filePath)) (extname filePath) (fs.length + 1) 2
      (by
        obtain ⟨j, hj, hfree⟩ := exists_free_candidate fs (dirname filePath)
          (basenameStripExt filePath (extname filePath)) (extname filePath) 2
        exact ⟨j, by omega, hfree⟩)
    rw [getUniquePath, if_neg (by simp [h]), heq]
    exact hfr
  · have h' : existsSync fs filePath = false := by
      revert h
      cases existsSync fs filePath <;> simp
    rw [getUniquePath, if_pos h']
    exact h'

/-- `getUniquePath` returns either the target itself or a numbered
candidate in the target's directory (helper shared by the restore
lemmas). -/
theorem getUniquePath_eq_or_candidate (fs : FS) (filePath : String) :
    getUniquePath fs filePath = filePath ∨
    ∃ n, 2 ≤ n ∧ getUniquePath fs filePath =
      candidateName (dirname filePath) (basenameStripExt filePath (extname filePath))
        (extname filePath) n := by
  by_cases h : existsSync fs filePath = true
  · obtain ⟨j, hj, heq, _, _⟩ := findFreeName_spec fs (dirname filePath)
      (basenameStripExt filePath (extname filePath)) (extname filePath) (fs.length + 1) 2
      (by
        obtain ⟨j, hj, hfree⟩ := exists_free_candidate fs (dirname filePath)
          (basenameStripExt filePath (extname filePath)) (extname filePath) 2
        exact ⟨j, by omega, hfree⟩)
    right
    refine ⟨2 + j, by omega, ?_⟩
    rw [getUniquePath, if_neg (by simp [h])]
    exact heq
  · left
    have h' : existsSync fs filePath = false := by
      revert h
      cases existsSync fs filePath <;> simp
    rw [getUniquePath, if_pos h']

/-- After a successful restore (first rename succeeds), the backup's
content sits at `getUniquePath fs target` and the backup name is gone. -/
theorem restoreProtectedEpub_restores (fs : FS) (pp target : String) (r2 : Bool)
    (o : String) (hpp : fsGet fs pp = some o) :
    fsGet (restoreProtectedEpub fs (some pp) target true r2) (getUniquePath fs target) =
      some o ∧
    fsGet (restoreProtectedEpub fs (some pp) target true r2) pp = none := by
  have hex : existsSync fs pp = true := by simp [existsSync, hpp]
  have hfree : existsSync fs (getUniquePath fs target) = false :=
    getUniquePath_not_exists fs target
  have hne : pp ≠ getUniquePath fs target := by
    intro he
    rw [← he] at hfree
    rw [hex] at hfree
    exact absurd hfree (by simp)
  simp only [restoreProtectedEpub, hex, if_true]
  constructor
  · rw [fsGet_renameSync fs pp _ _ o hpp, if_pos rfl]
  · rw [fsGet_renameSync fs pp _ _ o hpp, if_neg hne]
    simp

/-- Restoring never touches a path other than the backup name, the chosen
restore name and (in the fallback) the target. -/
theorem fsGet_restoreProtectedEpub_other (fs : FS) (ppo : Option String)
    (target : String) (r1 r2 : Bool) (q : String)
    (hq1 : ∀ pp, ppo = some pp → q ≠ pp)
    (hq2 : q ≠ getUniquePath fs target)
    (hq3 : existsSync fs target = false → q ≠ target) :
    fsGet (restoreProtectedEpub fs ppo target r1 r2) q = fsGet fs q := by
  match ppo with
  | none => rfl
  | some pp =>
    have hqpp : q ≠ pp := hq1 pp rfl
    simp only [restoreProtectedEpub]
    by_cases hex : existsSync fs pp = true
    · rw [if_pos hex]
      obtain ⟨c, hc⟩ := (existsSync_true_iff fs pp).mp hex
      by_cases hr1 : r1 = true
      · rw [hr1, if_pos rfl, fsGet_renameSync fs pp _ _ c hc, if_neg hq2, if_neg hqpp]
      · have hr1' : r1 = false := by revert hr1; cases r1 <;> simp
        rw [hr1']
        simp only [if_false, Bool.false_eq_true]
        by_cases htg : existsSync fs target = true
        · rw [if_pos htg]
        · rw [if_neg htg]
          have htg' : existsSync fs target = false := by
            revert htg
            cases existsSync fs target <;> simp
          by_cases hr2 : r2 = true
          · rw [hr2, if_pos rfl, fsGet_renameSync fs pp _ _ c hc, if_neg (hq3 htg'),
              if_neg hqpp]
          · have hr2' : r2 = false := by revert hr2; cases r2 <;> simp
            rw [hr2']
            simp
    · rw [if_neg hex]

theorem fsGet_applyWrites (ws : List (String × String)) (fs : FS) (q : String)
    (h : ∀ e ∈ ws, e.1 ≠ q) : fsGet (applyWrites fs ws) q = fsGet fs q := by
  induction ws generalizing fs with
  | nil => rfl
  | cons w ws ih =>
    have hw : w.1 ≠ q := h w (by simp)
    have hrest : ∀ e ∈ ws, e.1 ≠ q := fun e he => h e (by simp [he])
    show fsGet (applyWrites (writeFile fs w.1 w.2) ws) q = fsGet fs q
    rw [ih (writeFile fs w.1 w.2) hrest]
    rw [fsGet_writeFile, if_neg (fun hqw => hw hqw.symm)]

theorem fsGet_cleanupTmpFile_self (fs : FS) (p : String) :
    fsGet (cleanupTmpFile fs p) p = none := by
  unfold cleanupTmpFile
  by_cases h : existsSync fs p = true
  · rw [if_pos h]
    simp
  · have h' : existsSync fs p = false := by
      revert h
      cases existsSync fs p <;> simp
    rw [if_neg (by simp [h'])]
    exact (existsSync_false_iff fs p).mp h'

theorem fsGet_cleanupTmpFile_other (fs : FS) (p q : String) (h : q ≠ p) :
    fsGet (cleanupTmpFile fs p) q = fsGet fs q := by
  unfold cleanupTmpFile
  by_cases hex : existsSync fs p = true
  · rw [if_pos hex]
    simp [h]
  · rw [if_neg hex]

/-- When the target is occupied, restoring never changes what is at the
target (the unique restore name is then necessarily a different name and
the fallback rename is unreachable). -/
theorem fsGet_restoreProtectedEpub_target_occupied (fs : FS) (ppo : Option String)
    (target : String) (r1 r2 : Bool)
    (hocc : existsSync fs target = true)
    (hpp : ∀ pp, ppo = some pp → pp ≠ target) :
    fsGet (restoreProtectedEpub fs ppo target r1 r2) target = fsGet fs target := by
  match ppo with
  | none => rfl
  | some pp =>
    have hppt : pp ≠ target := hpp pp rfl
    simp only [restoreProtectedEpub]
    by_cases hex : existsSync fs pp = true
    · rw [if_pos hex]
      obtain ⟨c, hc⟩ := (existsSync_true_iff fs pp).mp hex
      by_cases hr1 : r1 = true
      · have hfree : existsSync fs (getUniquePath fs target) = false :=
          getUniquePath_not_exists fs target
        have hne : target ≠ getUniquePath fs target := by
          intro he
          rw [← he, hocc] at hfree
          exact absurd hfree (by simp)
        rw [hr1, if_pos rfl, fsGet_renameSync fs pp _ _ c hc, if_neg hne,
          if_neg (fun h => hppt h.symm)]
      · have hr1' : r1 = false := by
          revert hr1
          cases r1 <;> simp
        rw [hr1']
        simp only [Bool.false_eq_true, if_false]
        rw [if_pos hocc]
    · rw [if_neg hex]

/-- **C7.** `findGeneratedEpub`: an artifact named `<basename(dir)>.epub`
found inside the project directory is moved to the canonical sibling path
and that path is returned; if the move fails, the artifact stays inside
and the inside path is returned; otherwise an artifact already at the
canonical path is reported there; otherwise `undefined` is returned — a
generated artifact's actual location is always reported, never lost.  The
content conjuncts assume the backup name, when set, differs from the two
artifact paths (the hidden timestamped backup name guarantees this). -/
theorem findGeneratedEpub_spec (fs : FS) (epubDir target : String)
    (ppo : Option String) (moveOk r1 r2 : Bool)
    (hpp : ∀ pp, ppo = some pp →
      pp ≠ target ∧ pp ≠ pathJoin epubDir (basename epubDir ++ ".epub")) :
    (existsSync fs (pathJoin epubDir (basename epubDir ++ ".epub")) = true → moveOk = true →
      (findGeneratedEpub fs epubDir (some target) ppo moveOk r1 r2).2 = some target ∧
      fsGet (findGeneratedEpub fs epubDir (some target) ppo moveOk r1 r2).1 target =
        fsGet fs (pathJoin epubDir (basename epubDir ++ ".epub"))) ∧
    (existsSync fs (pathJoin epubDir (basename epubDir ++ ".epub")) = true → moveOk = false →
      (findGeneratedEpub fs epubDir (some target) ppo moveOk r1 r2).2 =
        some (pathJoin epubDir (basename epubDir ++ ".epub")) ∧
      fsGet (findGeneratedEpub fs epubDir (some target) ppo moveOk r1 r2).1
          (pathJoin epubDir (basename epubDir ++ ".epub")) =
        fsGet fs (pathJoin epubDir (basename epubDir ++ ".epub"))) ∧
    (existsSync fs (pathJoin epubDir (basename epubDir ++ ".epub")) = false →
      existsSync fs target = true →
      (findGeneratedEpub fs epubDir (some target) ppo moveOk r1 r2).2 = some target ∧
      fsGet (findGeneratedEpub fs epubDir (some target) ppo moveOk r1 r2).1 target =
        fsGet fs target) ∧
    (existsSync fs (pathJoin epubDir (basename epubDir ++ ".epub")) = false →
      existsSync fs target = false →
      (findGeneratedEpub fs epubDir (some target) ppo moveOk r1 r2).2 = none) := by
  refine ⟨?_, ?_, ?_, ?_⟩
  · intro hin hmv
    obtain ⟨c, hc⟩ := (existsSync_true_iff fs _).mp hin
    simp only [findGeneratedEpub, hin, hmv, if_true]
    refine ⟨by first | rfl | trivial, ?_⟩
    have hfs1 : fsGet (renameSync fs (pathJoin epubDir (basename epubDir ++ ".epub")) target)
        target = some c := by
      rw [fsGet_renameSync fs _ _ _ c hc, if_pos rfl]
    have hocc : existsSync (renameSync fs (pathJoin epubDir (basename epubDir ++ ".epub"))
        target) target = true := by
      rw [existsSync_true_iff]
      exact ⟨c, hfs1⟩
    rw [fsGet_restoreProtectedEpub_target_occupied _ ppo target r1 r2 hocc
      (fun pp h => (hpp pp h).1), hfs1, hc]
  · intro hin hmv
    simp only [findGeneratedEpub, hin, hmv, if_true, Bool.false_eq_true, if_false]
    refine ⟨by first | rfl | trivial, ?_⟩
    apply fsGet_restoreProtectedEpub_other
    · intro pp h
      exact fun he => (hpp pp h).2 he.symm
    · intro he
      have hfree : existsSync fs (getUniquePath fs target) = false :=
        getUniquePath_not_exists fs target
      rw [← he, hin] at hfree
      exact absurd hfree (by simp)
    · intro htf he
      rw [he, htf] at hin
      exact absurd hin (by simp)
  · intro hin htg
    simp only [findGeneratedEpub, hin, htg, Bool.false_eq_true, if_false, if_true]
    refine ⟨by first | rfl | trivial, ?_⟩
    exact fsGet_restoreProtectedEpub_target_occupied fs ppo target r1 r2 htg
      (fun pp h => (hpp pp h).1)
  · intro hin htg
    simp only [findGeneratedEpub, hin, htg, Bool.false_eq_true, if_false]

/- ### The two close-handler error texts of `run` are distinct -/

theorem parseFailureMessage_starts (stderr : String) (code : Option Int) :
    ∃ s, parseFailureMessage stderr code =
      "EPUBCheck failed to produce valid output." ++ s := by
  unfold parseFailureMessage
  cases code with
  | none =>
    by_cases h : stderr ≠ ""
    · refine ⟨"\nDetails: " ++ stderr.trim, ?_⟩
      show (if stderr ≠ "" then
          ("EPUBCheck failed to produce valid output." ++ "\nDetails: ") ++ stderr.trim
        else "EPUBCheck failed to produce valid output.") =
        "EPUBCheck failed to produce valid output." ++ ("\nDetails: " ++ stderr.trim)
      rw [if_pos h, String.append_assoc]
    · refine ⟨"", ?_⟩
      show (if stderr ≠ "" then
          ("EPUBCheck failed to produce valid output." ++ "\nDetails: ") ++ stderr.trim
        else "EPUBCheck failed to produce valid output.") =
        "EPUBCheck failed to produce valid output." ++ ""
      rw [if_neg h, String.append_empty]
  | some c =>
    by_cases h : stderr ≠ "" <;> by_cases hc : c ≠ 0
    · refine ⟨"\nDetails: " ++ stderr.trim ++ ("\nExit code: " ++ toString c), ?_⟩
      show ((if c ≠ 0 then
          ((if stderr ≠ "" then
            ("EPUBCheck failed to produce valid output." ++ "\nDetails: ") ++ stderr.trim
          else "EPUBCheck failed to produce valid output.") ++ "\nExit code: ") ++ toString c
        else (if stderr ≠ "" then
            ("EPUBCheck failed to produce valid output." ++ "\nDetails: ") ++ stderr.trim
          else "EPUBCheck failed to produce valid output."))) =
        "EPUBCheck failed to produce valid output." ++
          (("\nDetails: " ++ stderr.trim) ++ ("\nExit code: " ++ toString c))
      rw [if_pos hc, if_pos h]
      simp only [String.append_assoc]
    · refine ⟨"\nDetails: " ++ stderr.trim, ?_⟩
      show ((if c ≠ 0 then
          ((if stderr ≠ "" then
            ("EPUBCheck failed to produce valid output." ++ "\nDetails: ") ++ stderr.trim
          else "EPUBCheck failed to produce valid output.") ++ "\nExit code: ") ++ toString c
        else (if stderr ≠ "" then
            ("EPUBCheck failed to produce valid output." ++ "\nDetails: ") ++ stderr.trim
          else "EPUBCheck failed to produce valid output."))) =
        "EPUBCheck failed to produce valid output." ++ ("\nDetails: " ++ stderr.trim)
      rw [if_neg hc, if_pos h, String.append_assoc]
    · refine ⟨"\nExit code: " ++ toString c, ?_⟩
      show ((if c ≠ 0 then
          ((if stderr ≠ "" then
            ("EPUBCheck failed to produce valid output." ++ "\nDetails: ") ++ stderr.trim
          else "EPUBCheck failed to produce valid output.") ++ "\nExit code: ") ++ toString c
        else (if stderr ≠ "" then
            ("EPUBCheck failed to produce valid output." ++ "\nDetails: ") ++ stderr.trim
          else "EPUBCheck failed to produce valid output."))) =
        "EPUBCheck failed to produce valid output." ++ ("\nExit code: " ++ toString c)
      rw [if_pos hc, if_neg h, String.append_assoc]
    · refine ⟨"", ?_⟩
      show ((if c ≠ 0 then
          ((if stderr ≠ "" then
            ("EPUBCheck failed to produce valid output." ++ "\nDetails: ") ++ stderr.trim
          else "EPUBCheck failed to produce valid output.") ++ "\nExit code: ") ++ toString c
        else (if stderr ≠ "" then
            ("EPUBCheck failed to produce valid output." ++ "\nDetails: ") ++ stderr.trim
          else "EPUBCheck failed to produce valid output."))) =
        "EPUBCheck failed to produce valid output." ++ ""
      rw [if_neg hc, if_neg h, String.append_empty]

theorem parseFailureMessage_ne_timeoutMessage (stderr : String) (code : Option Int)
    (timeout : Nat) : parseFailureMessage stderr code ≠ timeoutMessage timeout := by
  obtain ⟨s, hs⟩ := parseFailureMessage_starts stderr code
  intro h
  rw [hs] at h
  unfold timeoutMessage at h
  have hd : ("EPUBCheck failed to produce valid output." : String).data ++ s.data =
      (("EPUBCheck timed out after " : String).data ++ (Nat.repr timeout).data) ++
        (" seconds. You can increase the timeout in settings (epubcheck.timeout)." :
          String).data := by
    have hd0 := congrArg String.data h
    rw [String.data_append, String.data_append, String.data_append] at hd0
    exact hd0
  have e1 : (("EPUBCheck failed to produce valid output." : String).data ++ s.data)[10]? =
      some 'f' := by
    rw [List.getElem?_append_left (by decide)]
    decide
  have hl : 10 < (("EPUBCheck timed out after " : String).data ++
      (Nat.repr timeout).data).length := by
    rw [List.length_append]
    have h26 : 10 < (("EPUBCheck timed out after " : String).data).length := by decide
    omega
  have e2 : ((("EPUBCheck timed out after " : String).data ++ (Nat.repr timeout).data) ++
      (" seconds. You can increase the timeout in settings (epubcheck.timeout)." :
        String).data)[10]? = some 't' := by
    rw [List.getElem?_append_left hl, List.getElem?_append_left (by decide)]
    decide
  have h10 : (("EPUBCheck failed to produce valid output." : String).data ++ s.data)[10]? =
      ((("EPUBCheck timed out after " : String).data ++ (Nat.repr timeout).data) ++
        (" seconds. You can increase the timeout in settings (epubcheck.timeout)." :
          String).data)[10]? := congrArg (fun l => l[10]?) hd
  rw [e1, e2] at h10
  exact absurd h10 (by decide)

theorem findGeneratedEpub_spec_witness :
    (findGeneratedEpub [("/a/book/book.epub", "GEN")] "/a/book" (some "/a/book.epub")
        none true true true).2 = some "/a/book.epub" ∧
    fsGet (findGeneratedEpub [("/a/book/book.epub", "GEN")] "/a/book" (some "/a/book.epub")
        none true true true).1 "/a/book.epub" = some "GEN" := by
  have h := (findGeneratedEpub_spec [("/a/book/book.epub", "GEN")] "/a/book" "/a/book.epub"
      none true true true (fun pp hp => Option.noConfusion hp)).1 (by decide) rfl
  refine ⟨h.1, ?_⟩
  rw [h.2]
  decide

/- ### Branch equations for `run`'s close handler -/

theorem run_eq (fs0 : FS) (epubDir : String) (save : Bool) (timeout ts : Nat)
    (jsonTmpFile : String) (parse : String → Option EpubCheckResult) (env : RunEnv) :
    run fs0 epubDir save timeout ts jsonTmpFile parse env =
      runClose (runPrelude fs0 epubDir save ts env).1 epubDir save timeout jsonTmpFile
        (if save then some (getDefaultEpubPath epubDir) else none)
        (runPrelude fs0 epubDir save ts env).2 parse env := rfl

theorem runClose_timeout_eq (fs2 : FS) (epubDir : String) (save : Bool) (timeout : Nat)
    (jsonTmpFile : String) (defaultEpubPath protectedPath : Option String)
    (parse : String → Option EpubCheckResult) (env : RunEnv)
    (hcond : (env.timedOut || env.exitCode.isNone) = true) :
    runClose fs2 epubDir save timeout jsonTmpFile defaultEpubPath protectedPath parse env =
      (cleanupTmpFile fs2 jsonTmpFile,
       { success := false, epubDir := epubDir, error := some (timeoutMessage timeout) }) := by
  unfold runClose
  rw [if_pos hcond]

theorem runClose_parsed_eq (fs2 : FS) (epubDir : String) (save : Bool) (timeout : Nat)
    (jsonTmpFile : String) (defaultEpubPath protectedPath : Option String)
    (parse : String → Option EpubCheckResult) (env : RunEnv) (result : EpubCheckResult)
    (hcond : (env.timedOut || env.exitCode.isNone) = false)
    (hparse : (fsGet fs2 jsonTmpFile).bind parse = some result) :
    runClose fs2 epubDir save timeout jsonTmpFile defaultEpubPath protectedPath parse env =
      ((if save then
          findGeneratedEpub (cleanupTmpFile fs2 jsonTmpFile) epubDir defaultEpubPath
            protectedPath env.moveOk env.r1Ok env.r2Ok
        else (cleanupTmpFile fs2 jsonTmpFile, none)).1,
       { success := !(result.messages.any
           (fun m => m.severity == "FATAL" || m.severity == "ERROR")),
         epubDir := epubDir, epubCheckResult := some result,
         epubOutputPath := (if save then
             findGeneratedEpub (cleanupTmpFile fs2 jsonTmpFile) epubDir defaultEpubPath
               protectedPath env.moveOk env.r1Ok env.r2Ok
           else (cleanupTmpFile fs2 jsonTmpFile, none)).2 }) := by
  unfold runClose
  rw [if_neg (by simp [hcond]), hparse]

theorem runClose_catch_eq (fs2 : FS) (epubDir : String) (save : Bool) (timeout : Nat)
    (jsonTmpFile : String) (defaultEpubPath protectedPath : Option String)
    (parse : String → Option EpubCheckResult) (env : RunEnv)
    (hcond : (env.timedOut || env.exitCode.isNone) = false)
    (hparse : (fsGet fs2 jsonTmpFile).bind parse = none) :
    runClose fs2 epubDir save timeout jsonTmpFile defaultEpubPath protectedPath parse env =
      (cleanupTmpFile fs2 jsonTmpFile,
       { success := false, epubDir := epubDir,
         error := some (parseFailureMessage env.stderr env.exitCode) }) := by
  unfold runClose
  rw [if_neg (by simp [hcond]), hparse]

/-- **C5.** When the child was killed for the timeout or closed with a
`null` exit code, `run` resolves the timeout classification: `success` is
false with an error naming the configured timeout in seconds, the temp
JSON result file is deleted, no parse is attempted (the outcome is
identical for every parse function), and the classification is mutually
exclusive with the normal-exit classifications: a run that closed normally
(not timed out, non-null code) never carries the timeout error text. -/
theorem run_timeout_spec (fs0 : FS) (epubDir : String) (save : Bool)
    (timeout ts : Nat) (jsonTmpFile : String)
    (parse : String → Option EpubCheckResult) (env : RunEnv)
    (h : env.timedOut = true ∨ env.exitCode = none) :
    (run fs0 epubDir save timeout ts jsonTmpFile parse env).2 =
      { success := false, epubDir := epubDir, error := some (timeoutMessage timeout) } ∧
    fsGet (run fs0 epubDir save timeout ts jsonTmpFile parse env).1 jsonTmpFile = none ∧
    (∀ parse2, run fs0 epubDir save timeout ts jsonTmpFile parse2 env =
      run fs0 epubDir save timeout ts jsonTmpFile parse env) ∧
    (∀ env2 : RunEnv, env2.timedOut = false → ∀ c : Int, env2.exitCode = some c →
      ∀ parse2,
        (run fs0 epubDir save timeout ts jsonTmpFile parse2 env2).2.error ≠
          some (timeoutMessage timeout)) := by
  have hcond : (env.timedOut || env.exitCode.isNone) = true := by
    rcases h with h | h
    · simp [h]
    · simp [h]
  refine ⟨?_, ?_, ?_, ?_⟩
  · rw [run_eq, runClose_timeout_eq _ _ _ _ _ _ _ _ _ hcond]
  · rw [run_eq, runClose_timeout_eq _ _ _ _ _ _ _ _ _ hcond]
    exact fsGet_cleanupTmpFile_self _ _
  · intro parse2
    rw [run_eq, runClose_timeout_eq _ _ _ _ _ _ _ _ _ hcond,
      run_eq, runClose_timeout_eq _ _ _ _ _ _ _ _ _ hcond]
  · intro env2 ht c hc parse2
    have hcond2 : (env2.timedOut || env2.exitCode.isNone) = false := by
      simp [ht, hc]
    rw [run_eq]
    cases hp : (fsGet (runPrelude fs0 epubDir save ts env2).1 jsonTmpFile).bind parse2 with
    | some r =>
      rw [runClose_parsed_eq _ _ _ _ _ _ _ _ _ r hcond2 hp]
      simp
    | none =>
      rw [runClose_catch_eq _ _ _ _ _ _ _ _ _ hcond2 hp]
      intro heq
      have := Option.some.inj (by simpa using heq)
      exact parseFailureMessage_ne_timeoutMessage env2.stderr env2.exitCode timeout this

theorem run_timeout_spec_witness :
    (({ timedOut := true, exitCode := none } : RunEnv).timedOut = true ∨
      ({ timedOut := true, exitCode := none } : RunEnv).exitCode = none) ∧
    (run [("/tmp/epubcheck-1.json", "partial")] "/a/book" true 30 7
        "/tmp/epubcheck-1.json" (fun _ => none)
        { timedOut := true, exitCode := none }).2 =
      { success := false, epubDir := "/a/book", error := some (timeoutMessage 30) } ∧
    fsGet (run [("/tmp/epubcheck-1.json", "partial")] "/a/book" true 30 7
        "/tmp/epubcheck-1.json" (fun _ => none)
        { timedOut := true, exitCode := none }).1 "/tmp/epubcheck-1.json" = none :=
  ⟨Or.inl rfl,
   (run_timeout_spec [("/tmp/epubcheck-1.json", "partial")] "/a/book" true 30 7
      "/tmp/epubcheck-1.json" (fun _ => none) { timedOut := true, exitCode := none }
      (Or.inl rfl)).1,
   (run_timeout_spec [("/tmp/epubcheck-1.json", "partial")] "/a/book" true 30 7
      "/tmp/epubcheck-1.json" (fun _ => none) { timedOut := true, exitCode := none }
      (Or.inl rfl)).2.1⟩

theorem not_any_fatal_error_iff (result : EpubCheckResult) :
    (!(result.messages.any (fun m => m.severity == "FATAL" || m.severity == "ERROR"))) =
      true ↔
      ∀ m ∈ result.messages, m.severity ≠ "FATAL" ∧ m.severity ≠ "ERROR" := by
  simp [List.any_eq_true, not_or]

/-- **C4.** In validation mode, when the process closed normally (not
timed out, non-null exit code) and the temp result file was read and
parsed successfully, the returned outcome's `success` is true iff the
parsed message list contains no message whose severity is FATAL or
ERROR. -/
theorem run_success_iff_no_fatal_error (fs0 : FS) (epubDir : String) (save : Bool)
    (timeout ts : Nat) (jsonTmpFile : String)
    (parse : String → Option EpubCheckResult) (env : RunEnv) (c : Int)
    (htimed : env.timedOut = false) (hcode : env.exitCode = some c)
    (result : EpubCheckResult)
    (hparse : (fsGet (runPrelude fs0 epubDir save ts env).1 jsonTmpFile).bind parse =
      some result) :
    ((run fs0 epubDir save timeout ts jsonTmpFile parse env).2.success = true ↔
      ∀ m ∈ result.messages, m.severity ≠ "FATAL" ∧ m.severity ≠ "ERROR") ∧
    (run fs0 epubDir save timeout ts jsonTmpFile parse env).2.epubCheckResult =
      some result := by
  have hcond : (env.timedOut || env.exitCode.isNone) = false := by
    simp [htimed, hcode]
  rw [run_eq, runClose_parsed_eq _ _ _ _ _ _ _ _ _ result hcond hparse]
  exact ⟨not_any_fatal_error_iff result, rfl⟩

theorem run_success_iff_no_fatal_error_witness :
    (run [] "/a/book" false 30 7 "/t/r.json"
        (fun _ => some { messages := [] })
        { timedOut := false, exitCode := some 0,
          toolWrites := [("/t/r.json", "japanese-tea")] }).2.success = true :=
  (run_success_iff_no_fatal_error [] "/a/book" false 30 7 "/t/r.json"
      (fun _ => some { messages := [] })
      { timedOut := false, exitCode := some 0,
        toolWrites := [("/t/r.json", "japanese-tea")] } 0 rfl rfl
      { messages := [] } (by decide)).1.mpr (by simp)

/-- **C9.** Once the process closes (not timed out) with a non-null exit
code and the temp result file parses, the outcome does not depend on the
exit code's value: two runs identical except for their non-null exit
codes return the same state and outcome; in particular a nonzero exit
code with a parseable result containing no FATAL/ERROR message still
yields `success = true`. -/
theorem run_independent_of_exit_code (fs0 : FS) (epubDir : String) (save : Bool)
    (timeout ts : Nat) (jsonTmpFile : String)
    (parse : String → Option EpubCheckResult) (env : RunEnv) (c1 c2 : Int)
    (htimed : env.timedOut = false) (result : EpubCheckResult)
    (hparse : (fsGet (runPrelude fs0 epubDir save ts
        { env with exitCode := some c1 }).1 jsonTmpFile).bind parse = some result) :
    run fs0 epubDir save timeout ts jsonTmpFile parse { env with exitCode := some c1 } =
      run fs0 epubDir save timeout ts jsonTmpFile parse { env with exitCode := some c2 } ∧
    ((∀ m ∈ result.messages, m.severity ≠ "FATAL" ∧ m.severity ≠ "ERROR") →
      (run fs0 epubDir save timeout ts jsonTmpFile parse
        { env with exitCode := some c1 }).2.success = true) := by
  have hcond1 : (({ env with exitCode := some c1 } : RunEnv).timedOut ||
      ({ env with exitCode := some c1 } : RunEnv).exitCode.isNone) = false := by
    simp [htimed]
  have hcond2 : (({ env with exitCode := some c2 } : RunEnv).timedOut ||
      ({ env with exitCode := some c2 } : RunEnv).exitCode.isNone) = false := by
    simp [htimed]
  have hparse2 : (fsGet (runPrelude fs0 epubDir save ts
      { env with exitCode := some c2 }).1 jsonTmpFile).bind parse = some result := hparse
  constructor
  · rw [run_eq, runClose_parsed_eq _ _ _ _ _ _ _ _ _ result hcond1 hparse,
      run_eq, runClose_parsed_eq _ _ _ _ _ _ _ _ _ result hcond2 hparse2]
    rfl
  · intro hclean
    rw [run_eq, runClose_parsed_eq _ _ _ _ _ _ _ _ _ result hcond1 hparse]
    exact (not_any_fatal_error_iff result).mpr hclean

theorem run_independent_of_exit_code_witness :
    run [] "/a/book" false 30 7 "/t/r.json" (fun _ => some { messages := [] })
        { timedOut := false, exitCode := some 2,
          toolWrites := [("/t/r.json", "x")] } =
      run [] "/a/book" false 30 7 "/t/r.json" (fun _ => some { messages := [] })
        { timedOut := false, exitCode := some 5,
          toolWrites := [("/t/r.json", "x")] } ∧
    (run [] "/a/book" false 30 7 "/t/r.json" (fun _ => some { messages := [] })
        { timedOut := false, exitCode := some 2,
          toolWrites := [("/t/r.json", "x")] }).2.success = true := by
  have h := run_independent_of_exit_code [] "/a/book" false 30 7 "/t/r.json"
    (fun _ => some { messages := [] })
    { timedOut := false, exitCode := some 0, toolWrites := [("/t/r.json", "x")] }
    2 5 rfl { messages := [] } (by decide)
  exact ⟨h.1, h.2 (by simp)⟩

/-- **C2 (amended).** In `generateOnly` the exit code selects the branch
but is not the sole success signal: exit codes 0 and 1 both proceed to
artifact discovery and the outcome succeeds iff a generated artifact was
located (exit 1 with an artifact found succeeds; exit 0 with none found
fails); any other exit code yields an execution-failure outcome naming
that exit code. -/
theorem generateOnly_exit_code_spec (fs0 : FS) (epubDir : String) (timeout ts : Nat)
    (env : RunEnv) (c : Int) (ht : env.timedOut = false) (hc : env.exitCode = some c) :
    ((c = 0 ∨ c = 1) →
      ((generateOnly fs0 epubDir timeout ts env).2.success = true ↔
        (generateOnly fs0 epubDir timeout ts env).2.epubOutputPath.isSome = true)) ∧
    (c ≠ 0 → c ≠ 1 →
      (generateOnly fs0 epubDir timeout ts env).2.success = false ∧
      (generateOnly fs0 epubDir timeout ts env).2.epubOutputPath = none ∧
      (generateOnly fs0 epubDir timeout ts env).2.error =
        some ("EPUBCheck failed with exit code " ++ toString c ++ ".\n" ++ env.stderr)) := by
  simp only [generateOnly, ht, hc, Bool.false_eq_true, if_false]
  constructor
  · intro h01
    rw [if_pos h01]
  · intro h0 h1
    rw [if_neg (fun h : c = 0 ∨ c = 1 => h.elim h0 h1)]
    exact ⟨rfl, rfl, rfl⟩

theorem generateOnly_exit_code_spec_witness :
    (generateOnly [] "/a/book" 30 7 { timedOut := false, exitCode := some 2 }).2.success =
      false ∧
    (generateOnly [] "/a/book" 30 7 { timedOut := false, exitCode := some 2 }).2.error =
      some ("EPUBCheck failed with exit code " ++ toString (2 : Int) ++ ".\n" ++ "") :=
  ⟨((generateOnly_exit_code_spec [] "/a/book" 30 7
      { timedOut := false, exitCode := some 2 } 2 rfl rfl).2 (by decide) (by decide)).1,
   ((generateOnly_exit_code_spec [] "/a/book" 30 7
      { timedOut := false, exitCode := some 2 } 2 rfl rfl).2 (by decide) (by decide)).2.2⟩

/-- **C2 counterexample.** A `generateOnly` run whose process exits with
code 1 but whose tool left an artifact at the canonical sibling path
returns a SUCCESSFUL outcome, contradicting "exit code 1 yields a failed
outcome (validation errors aborted artifact generation)": the exit code is
not the sole success signal — artifact discovery is. -/
theorem generateOnly_exit_one_success_counterexample :
    ({ timedOut := false, exitCode := some 1,
       toolWrites := [("/a/book.epub", "NEW")] } : RunEnv).exitCode = some 1 ∧
    (generateOnly [] "/a/book" 30 7
      { timedOut := false, exitCode := some 1,
        toolWrites := [("/a/book.epub", "NEW")] }).2.success = true := by
  exact ⟨rfl, by decide⟩

/- ### C1: the backup across a whole `run` -/

theorem string_ne_of_data_get0 (x z : String) (cx cz : Char)
    (hx : x.data[0]? = some cx) (hz : z.data[0]? = some cz) (hne : cx ≠ cz) : x ≠ z := by
  intro h
  rw [h, hz] at hx
  exact hne (Option.some.inj hx.symm)

theorem data_get0_append (a b : String) (h : 0 < a.data.length) :
    (a ++ b).data[0]? = a.data[0]? := by
  rw [String.data_append, List.getElem?_append_left h]

/-- Through `findGeneratedEpub` (restore rename allowed to succeed), a
backup whose bytes are `o` ends at the target itself or at a numbered
candidate of the target, and the backup name is emptied — in every branch
of the artifact search. -/
theorem findGeneratedEpub_restore_backup (fs : FS) (epubDir target pp : String)
    (moveOk r2 : Bool) (o : String) (hpp : fsGet fs pp = some o)
    (h3 : pp ≠ target)
    (h4 : pp ≠ pathJoin epubDir (basename epubDir ++ ".epub")) :
    ∃ rp,
      fsGet (findGeneratedEpub fs epubDir (some target) (some pp) moveOk true r2).1 rp =
        some o ∧
      (rp = target ∨ ∃ n, 2 ≤ n ∧ rp = candidateName (dirname target)
        (basenameStripExt target (extname target)) (extname target) n) ∧
      fsGet (findGeneratedEpub fs epubDir (some target) (some pp) moveOk true r2).1 pp =
        none := by
  by_cases hin : existsSync fs (pathJoin epubDir (basename epubDir ++ ".epub")) = true
  · by_cases hmv : moveOk = true
    · obtain ⟨ci, hci⟩ := (existsSync_true_iff fs _).mp hin
      subst hmv
      simp only [findGeneratedEpub, hin, if_true]
      have hpp1 : fsGet (renameSync fs (pathJoin epubDir (basename epubDir ++ ".epub"))
          target) pp = some o := by
        rw [fsGet_renameSync fs _ _ _ ci hci, if_neg h3, if_neg h4]
        exact hpp
      obtain ⟨ha, hb⟩ := restoreProtectedEpub_restores
        (renameSync fs (pathJoin epubDir (basename epubDir ++ ".epub")) target)
        pp target r2 o hpp1
      exact ⟨getUniquePath (renameSync fs (pathJoin epubDir
          (basename epubDir ++ ".epub")) target) target, ha,
        getUniquePath_eq_or_candidate _ target, hb⟩
    · have hmv' : moveOk = false := by
        revert hmv
        cases moveOk <;> simp
      subst hmv'
      simp only [findGeneratedEpub, hin, if_true, Bool.false_eq_true, if_false]
      obtain ⟨ha, hb⟩ := restoreProtectedEpub_restores fs pp target r2 o hpp
      exact ⟨getUniquePath fs target, ha, getUniquePath_eq_or_candidate fs target, hb⟩
  · simp only [findGeneratedEpub, hin, Bool.false_eq_true, if_false]
    obtain ⟨ha, hb⟩ := restoreProtectedEpub_restores fs pp target r2 o hpp
    by_cases htg : existsSync fs target = true
    · rw [if_pos htg]
      exact ⟨getUniquePath fs target, ha, getUniquePath_eq_or_candidate fs target, hb⟩
    · rw [if_neg htg]
      exact ⟨getUniquePath fs target, ha, getUniquePath_eq_or_candidate fs target, hb⟩

/-- The backup survives the close handler's temp-file cleanup and is then
restored by the artifact search of the parse-success branch. -/
theorem runClose_restores (fs2 : FS) (epubDir dp pp jsonTmpFile : String)
    (timeout : Nat) (parse : String → Option EpubCheckResult) (env : RunEnv)
    (result : EpubCheckResult) (o : String)
    (hcond : (env.timedOut || env.exitCode.isNone) = false)
    (hparse : (fsGet fs2 jsonTmpFile).bind parse = some result)
    (hpp2 : fsGet fs2 pp = some o)
    (htmp : pp ≠ jsonTmpFile) (hne1 : pp ≠ dp)
    (hne2 : pp ≠ pathJoin epubDir (basename epubDir ++ ".epub"))
    (hr1 : env.r1Ok = true) :
    ∃ rp,
      fsGet (runClose fs2 epubDir true timeout jsonTmpFile (some dp) (some pp)
        parse env).1 rp = some o ∧
      (rp = dp ∨ ∃ n, 2 ≤ n ∧ rp = candidateName (dirname dp)
        (basenameStripExt dp (extname dp)) (extname dp) n) ∧
      fsGet (runClose fs2 epubDir true timeout jsonTmpFile (some dp) (some pp)
        parse env).1 pp = none := by
  have hpp3 : fsGet (cleanupTmpFile fs2 jsonTmpFile) pp = some o := by
    rw [fsGet_cleanupTmpFile_other fs2 jsonTmpFile pp htmp]
    exact hpp2
  obtain ⟨rp, h1, h2, h3⟩ := findGeneratedEpub_restore_backup
    (cleanupTmpFile fs2 jsonTmpFile) epubDir dp pp env.moveOk env.r2Ok o hpp3 hne1 hne2
  rw [runClose_parsed_eq _ _ _ _ _ _ _ _ _ result hcond hparse, hr1]
  exact ⟨rp, h1, h2, h3⟩

theorem runPrelude_save_protected (fs0 : FS) (epubDir : String) (ts : Nat)
    (env : RunEnv) (o : String)
    (hex : fsGet fs0 (getDefaultEpubPath epubDir) = some o)
    (hok : env.protectOk = true) :
    runPrelude fs0 epubDir true ts env =
      (applyWrites (renameSync fs0 (getDefaultEpubPath epubDir)
          (pathJoin (dirname (getDefaultEpubPath epubDir))
            (protectName ts (extname (getDefaultEpubPath epubDir))))) env.toolWrites,
       some (pathJoin (dirname (getDefaultEpubPath epubDir))
          (protectName ts (extname (getDefaultEpubPath epubDir))))) := by
  have hexb : existsSync fs0 (getDefaultEpubPath epubDir) = true := by
    rw [existsSync, hex]
    rfl
  simp only [runPrelude, protectExistingEpub, hexb, hok, if_true]

/-- **C1 (amended).** Restoration happens on the branch that reaches
artifact reconciliation: in a produce-artifact `run` whose protective
rename succeeded, whose process closes normally (not timed out, non-null
exit code) and whose result file parses, the pre-existing artifact's bytes
end at the canonical sibling path or at a uniquely disambiguated
`name (n)` sibling, and nothing remains at the hidden
`.epubcheck-protect-<timestamp>` name.  On the timeout and parse-failure
branches of `run` no restore is performed and the backup stays at the
hidden name (see the counterexample).  Side conditions: the restore rename
succeeds and the hidden timestamped name collides with none of the tool's
writes, the temp result file, the canonical path or the inside path. -/
theorem run_restores_backup_on_parsed_branch (fs0 : FS) (epubDir : String)
    (timeout ts : Nat) (jsonTmpFile : String)
    (parse : String → Option EpubCheckResult) (env : RunEnv) (c : Int) (o : String)
    (result : EpubCheckResult)
    (hex : fsGet fs0 (getDefaultEpubPath epubDir) = some o)
    (hok : env.protectOk = true) (hr1 : env.r1Ok = true)
    (htimed : env.timedOut = false) (hcode : env.exitCode = some c)
    (hparse : (fsGet (runPrelude fs0 epubDir true ts env).1 jsonTmpFile).bind parse =
      some result)
    (hw : ∀ e ∈ env.toolWrites, e.1 ≠ pathJoin (dirname (getDefaultEpubPath epubDir))
      (protectName ts (extname (getDefaultEpubPath epubDir))))
    (htmp : pathJoin (dirname (getDefaultEpubPath epubDir))
      (protectName ts (extname (getDefaultEpubPath epubDir))) ≠ jsonTmpFile)
    (hne1 : pathJoin (dirname (getDefaultEpubPath epubDir))
      (protectName ts (extname (getDefaultEpubPath epubDir))) ≠
        getDefaultEpubPath epubDir)
    (hne2 : pathJoin (dirname (getDefaultEpubPath epubDir))
      (protectName ts (extname (getDefaultEpubPath epubDir))) ≠
        pathJoin epubDir (basename epubDir ++ ".epub")) :
    ∃ rp,
      fsGet (run fs0 epubDir true timeout ts jsonTmpFile parse env).1 rp = some o ∧
      (rp = getDefaultEpubPath epubDir ∨ ∃ n, 2 ≤ n ∧
        rp = candidateName (dirname (getDefaultEpubPath epubDir))
          (basenameStripExt (getDefaultEpubPath epubDir)
            (extname (getDefaultEpubPath epubDir)))
          (extname (getDefaultEpubPath epubDir)) n) ∧
      fsGet (run fs0 epubDir true timeout ts jsonTmpFile parse env).1
        (pathJoin (dirname (getDefaultEpubPath epubDir))
          (protectName ts (extname (getDefaultEpubPath epubDir)))) = none := by
  have hcond : (env.timedOut || env.exitCode.isNone) = false := by
    simp [htimed, hcode]
  have hpre := runPrelude_save_protected fs0 epubDir ts env o hex hok
  have hparse2 : (fsGet (applyWrites (renameSync fs0 (getDefaultEpubPath epubDir)
      (pathJoin (dirname (getDefaultEpubPath epubDir))
        (protectName ts (extname (getDefaultEpubPath epubDir))))) env.toolWrites)
      jsonTmpFile).bind parse = some result := by
    have h1 : (runPrelude fs0 epubDir true ts env).1 =
        applyWrites (renameSync fs0 (getDefaultEpubPath epubDir)
          (pathJoin (dirname (getDefaultEpubPath epubDir))
            (protectName ts (extname (getDefaultEpubPath epubDir))))) env.toolWrites := by
      rw [hpre]
    rw [← h1]
    exact hparse
  have hpp1 : fsGet (renameSync fs0 (getDefaultEpubPath epubDir)
      (pathJoin (dirname (getDefaultEpubPath epubDir))
        (protectName ts (extname (getDefaultEpubPath epubDir)))))
      (pathJoin (dirname (getDefaultEpubPath epubDir))
        (protectName ts (extname (getDefaultEpubPath epubDir)))) = some o := by
    rw [fsGet_renameSync fs0 _ _ _ o hex, if_pos rfl]
  have hpp2 : fsGet (applyWrites (renameSync fs0 (getDefaultEpubPath epubDir)
      (pathJoin (dirname (getDefaultEpubPath epubDir))
        (protectName ts (extname (getDefaultEpubPath epubDir))))) env.toolWrites)
      (pathJoin (dirname (getDefaultEpubPath epubDir))
        (protectName ts (extname (getDefaultEpubPath epubDir)))) = some o := by
    rw [fsGet_applyWrites env.toolWrites _ _ hw]
    exact hpp1
  rw [run_eq, hpre]
  exact runClose_restores _ epubDir (getDefaultEpubPath epubDir) _ jsonTmpFile timeout
    parse env result o hcond hparse2 hpp2 htmp hne1 hne2 hr1

theorem run_restores_backup_witness :
    ∃ rp,
      fsGet (run [("/a/book.epub", "ORIGINAL")] "/a/book" true 30 7 "/tmp/r.json"
        (fun _ => some { messages := [] })
        { timedOut := false, exitCode := some 0,
          toolWrites := [("/tmp/r.json", "json-output"), ("/a/book.epub", "NEW")] }).1 rp =
        some "ORIGINAL" ∧
      (rp = getDefaultEpubPath "/a/book" ∨ ∃ n, 2 ≤ n ∧
        rp = candidateName (dirname (getDefaultEpubPath "/a/book"))
          (basenameStripExt (getDefaultEpubPath "/a/book")
            (extname (getDefaultEpubPath "/a/book")))
          (extname (getDefaultEpubPath "/a/book")) n) ∧
      fsGet (run [("/a/book.epub", "ORIGINAL")] "/a/book" true 30 7 "/tmp/r.json"
        (fun _ => some { messages := [] })
        { timedOut := false, exitCode := some 0,
          toolWrites := [("/tmp/r.json", "json-output"), ("/a/book.epub", "NEW")] }).1
        (pathJoin (dirname (getDefaultEpubPath "/a/book"))
          (protectName 7 (extname (getDefaultEpubPath "/a/book")))) = none :=
  run_restores_backup_on_parsed_branch [("/a/book.epub", "ORIGINAL")] "/a/book" 30 7
    "/tmp/r.json" (fun _ => some { messages := [] })
    { timedOut := false, exitCode := some 0,
      toolWrites := [("/tmp/r.json", "json-output"), ("/a/book.epub", "NEW")] }
    0 "ORIGINAL" { messages := [] }
    (by decide) rfl rfl rfl rfl (by decide) (by decide) (by decide) (by decide) (by decide)

/-- **C1 counterexample.** A produce-artifact `run` with an existing
artifact ("ORIGINAL") at the canonical path `/a/book.epub`, whose
protective rename succeeds and which then times out, returns with the
original bytes still at the hidden `.epubcheck-protect-7.epub` name: they
are at neither the canonical path nor any disambiguated `book (n).epub`
sibling, so the backup IS abandoned on the timeout branch, refuting
"the backup is restored on every outcome branch". -/
theorem run_timeout_abandons_backup_counterexample :
    fsGet (run [("/a/book.epub", "ORIGINAL")] "/a/book" true 30 7 "/tmp/r.json"
        (fun _ => none) { timedOut := true, exitCode := none }).1 "/a/book.epub" = none ∧
    (∀ n, 2 ≤ n →
      fsGet (run [("/a/book.epub", "ORIGINAL")] "/a/book" true 30 7 "/tmp/r.json"
          (fun _ => none) { timedOut := true, exitCode := none }).1
        (candidateName "/a" "book" ".epub" n) = none) ∧
    fsGet (run [("/a/book.epub", "ORIGINAL")] "/a/book" true 30 7 "/tmp/r.json"
        (fun _ => none) { timedOut := true, exitCode := none }).1
      (pathJoin "/a" (protectName 7 ".epub")) = some "ORIGINAL" := by
  have hfs : (run [("/a/book.epub", "ORIGINAL")] "/a/book" true 30 7 "/tmp/r.json"
      (fun _ => none) { timedOut := true, exitCode := none }).1 =
      [("/a/.epubcheck-protect-7.epub", "ORIGINAL")] := by decide
  refine ⟨?_, ?_, ?_⟩
  · rw [hfs]
    decide
  · intro n hn
    rw [hfs]
    have hne : candidateName "/a" "book" ".epub" n ≠ "/a/.epubcheck-protect-7.epub" := by
      intro heq
      have hpj : candidateName "/a" "book" ".epub" n =
          "/a" ++ "/" ++ ("book" ++ " (" ++ Nat.repr n ++ ")" ++ ".epub") := by
        unfold candidateName pathJoin
        rw [if_neg (by decide), if_neg (by decide)]
      have hsplit : ("/a/.epubcheck-protect-7.epub" : String) =
          "/a" ++ "/" ++ ".epubcheck-protect-7.epub" := by decide
      rw [hpj, hsplit] at heq
      have hX := string_append_cancel_left heq
      simp only [String.append_assoc] at hX
      exact absurd hX (string_ne_of_data_get0 _ _ 'b' '.'
        (by rw [data_get0_append _ _ (by decide)]; decide) (by decide) (by decide))
    show (if "/a/.epubcheck-protect-7.epub" = candidateName "/a" "book" ".epub" n then
        some "ORIGINAL" else fsGet [] (candidateName "/a" "book" ".epub" n)) = none
    rw [if_neg (fun h => hne h.symm)]
    rfl
  · rw [hfs]
    decide

theorem getUniquePath_spec_witness :
    getUniquePath [("/d/book.epub", "x"), ("/d/book (2).epub", "y")] "/d/book.epub" =
      "/d/book (3).epub" ∧
    existsSync [("/d/book.epub", "x"), ("/d/book (2).epub", "y")]
      (getUniquePath [("/d/book.epub", "x"), ("/d/book (2).epub", "y")] "/d/book.epub") =
      false :=
  ⟨by decide,
   (getUniquePath_spec [("/d/book.epub", "x"), ("/d/book (2).epub", "y")]
      "/d/book.epub").2.2⟩
